import Mathlib

/-!
# Recipe application (`app.js`): request handlers over a relational store

A shallow embedding of the Express application in `src/app.js`.

* The relational store (MySQL, reached through `conn.query`) is a pair of tables held as
  lists of rows, together with the list of SQL statements issued so far.
* A session is the record `req.session` (fields `user`, `userId`, and the flash queue).
* Every route handler is a pure function from the store and the session of the request
  to the new store, the new session and the response that was sent.
* A statement that can fail where the model follows the failure gets it as an explicit
  input (`Faults`); the other statements are modelled as executing.
* The fields of the body of `POST /login` may be absent (`none`); an absent field of
  `POST /register` validates as the empty string.
* The libraries (`validator.js` sanitizers and validators, `bcrypt`, `express-flash`,
  the `MemoryStore` of `express-session`) are modelled by the definitions of the first
  sections; the hash function of `bcrypt` is a parameter.
-/

namespace RecipeApp

/-! ## Characters and the express-validator chains of `POST /register` -/

/-- The character class `[a-z]` of the password pattern. -/
def isLowerAZ (c : Char) : Bool := decide (97 ≤ c.toNat) && decide (c.toNat ≤ 122)

/-- The character class `[A-Z]` of the password pattern. -/
def isUpperAZ (c : Char) : Bool := decide (65 ≤ c.toNat) && decide (c.toNat ≤ 90)

/-- The character class `\d` of a JavaScript pattern without the `u` flag: `[0-9]`. -/
def isDigit09 (c : Char) : Bool := decide (48 ≤ c.toNat) && decide (c.toNat ≤ 57)

/-- The character class `[@$!%*?&]` of the password pattern. -/
def isSymbol (c : Char) : Bool := decide (c ∈ ['@', '$', '!', '%', '*', '?', '&'])

/-- The character class `[A-Za-z\d@$!%*?&]` of the password pattern. -/
def inPasswordClass (c : Char) : Bool :=
  isUpperAZ c || isLowerAZ c || isDigit09 c || isSymbol c

/-- Line terminators of JavaScript, the characters that `.` does not match
(no `s` flag): LF, CR, U+2028, U+2029. -/
def isLineTerminator (c : Char) : Bool :=
  decide (c.toNat = 10) || decide (c.toNat = 13) || decide (c.toNat = 8232)
    || decide (c.toNat = 8233)

/-- The lookahead `(?=.*[cls])` tried at the start of the input: some character of the
class is reached after a run of characters that `.` matches. -/
def lookahead (cls : Char → Bool) : List Char → Bool
  | [] => false
  | c :: cs => cls c || (!isLineTerminator c && lookahead cls cs)

/-- The body `[A-Za-z\d@$!%*?&]+$` anchored at `^`: one or more characters, all of
the class, up to the end of the input. -/
def classPlus (cs : List Char) : Bool := !cs.isEmpty && cs.all inPasswordClass

/-- The pattern of line 122,
`/^(?=.*[a-z])(?=.*[A-Z])(?=.*\d)(?=.*[@$!%*?&])[A-Za-z\d@$!%*?&]+$/`, tested on a
string (`.matches(...)` is `pattern.test(str)`). -/
def matchesPasswordPattern (p : String) : Bool :=
  lookahead isLowerAZ p.toList && lookahead isUpperAZ p.toList
    && lookahead isDigit09 p.toList && lookahead isSymbol p.toList && classPlus p.toList

/-- The characters that `isLength` of `validator.js` leaves out of its count: the
variation selectors U+FE0E and U+FE0F. -/
def isVariationSelector (c : Char) : Bool :=
  decide (c.toNat = 65038) || decide (c.toNat = 65039)

/-- The length that `isLength` of `validator.js` measures: `str.length` less the
surrogate pairs, that is the number of code points, less the variation selectors. -/
def validatorLength (s : String) : Nat :=
  (s.toList.filter fun c => !isVariationSelector c).length

/-- The validator `isLength({ min })`: the measured length is at least `min`. -/
def isLengthMin (min : Nat) (s : String) : Bool := decide (min ≤ validatorLength s)

/-- The message of `isLength({ min: 6 })` on the password. -/
def msgPasswordLength : String := "Password must be at least 6 characters long."

/-- The message of `.matches(...)` on the password. -/
def msgPasswordPattern : String :=
  "Password must include at least one lowercase letter, one uppercase letter, one number, and one special character"

/-- The message of `isLength({ min: 3 })` on the username. -/
def msgUsernameLength : String := "Username must be at least 3 characters long."

/-- The default message of a validator without `withMessage` (here `notEmpty`). -/
def msgInvalidValue : String := "Invalid value"

/-- The chain `body('password').isLength({ min: 6 }).withMessage(..).matches(..).withMessage(..)`:
the messages of the validators that fail, in chain order. The chain has no sanitizer. -/
def passwordErrors (p : String) : List String :=
  (if isLengthMin 6 p then [] else [msgPasswordLength])
    ++ (if matchesPasswordPattern p then [] else [msgPasswordPattern])

/-- White space of JavaScript (`\s`), which `trim()` strips from both ends. -/
def isJsWhitespace (c : Char) : Bool :=
  let n := c.toNat
  (decide (9 ≤ n) && decide (n ≤ 13)) || decide (n = 32) || decide (n = 160)
    || decide (n = 5760) || (decide (8192 ≤ n) && decide (n ≤ 8202)) || decide (n = 8232)
    || decide (n = 8233) || decide (n = 8239) || decide (n = 8287) || decide (n = 12288)
    || decide (n = 65279)

/-- The sanitizer `trim()` on the characters of a string. -/
def trimChars (cs : List Char) : List Char :=
  ((cs.dropWhile isJsWhitespace).reverse.dropWhile isJsWhitespace).reverse

/-- The replacement that the sanitizer `escape()` makes for one character. -/
def escapeChar (c : Char) : List Char :=
  if c = '&' then "&amp;".toList
  else if c.toNat = 34 then "&quot;".toList
  else if c.toNat = 39 then "&#x27;".toList
  else if c = '<' then "&lt;".toList
  else if c = '>' then "&gt;".toList
  else if c = '/' then "&#x2F;".toList
  else if c.toNat = 92 then "&#x5C;".toList
  else if c.toNat = 96 then "&#96;".toList
  else [c]

/-- The sanitizer `escape()` on the characters of a string. -/
def escapeChars (cs : List Char) : List Char := cs.flatMap escapeChar

/-- The value of `req.body.username` after the chain
`body('username').notEmpty().trim().escape().isLength({ min: 3 })` has run: the
sanitizers write their result back into the request. -/
def sanitizeUsername (u : String) : String := String.mk (escapeChars (trimChars u.toList))

/-- The messages of the username chain: `notEmpty` looks at the submitted value,
`isLength({ min: 3 })` at the trimmed and escaped one. -/
def usernameErrors (u : String) : List String :=
  (if u.isEmpty then [msgInvalidValue] else [])
    ++ (if isLengthMin 3 (sanitizeUsername u) then [] else [msgUsernameLength])

/-- The array `errors.array().map(error => error.msg)` of line 131: the username
chain comes first. -/
def validationErrors (u p : String) : List String := usernameErrors u ++ passwordErrors p

/-! ## The store -/

/-- Modelled from the spec: the schema of the `users` table is not part of the source;
a row has the columns `id`, `username`, `password` that the statements of `app.js`
name (the password column holds the hash). -/
structure User where
  id : Nat
  username : String
  password : String
deriving DecidableEq, Repr

/-- Modelled from the spec: the schema of the `recipes` table is not part of the source;
a row has the columns `id`, `recipe_name`, `ingredients`, `user_id` that the statements
of `app.js` name. `user_id` is `none` for SQL `NULL`; the spec says that the column is
not backed by a database constraint. -/
structure Recipe where
  id : Nat
  recipe_name : String
  ingredients : String
  user_id : Option Nat
deriving DecidableEq, Repr

/-- Modelled from the spec: the relational store behind `conn`. The two tables in
insertion order, the next value of each `id` column (the statements never supply an
id, the store assigns it), and the SQL statements issued so far. -/
structure Db where
  users : List User
  recipes : List Recipe
  nextUserId : Nat
  nextRecipeId : Nat
  log : List String
deriving DecidableEq, Repr

namespace Db

/-- The store before any statement: no rows, ids start at 1. -/
def empty : Db := ⟨[], [], 1, 1, []⟩

/-- Record that a statement was sent over the connection. -/
def issue (sql : String) (db : Db) : Db := { db with log := db.log ++ [sql] }

/-- The rows of `SELECT * FROM users WHERE username = ?` (exact match, as the spec says). -/
def usersByUsername (db : Db) (username : String) : List User :=
  db.users.filter (fun u => decide (u.username = username))

/-- The rows of `SELECT * FROM users WHERE username != ?`. -/
def usersExcept (db : Db) (username : String) : List User :=
  db.users.filter (fun u => decide (u.username ≠ username))

/-- The effect of `INSERT INTO users (username, password) VALUES (?, ?)`. -/
def insertUser (db : Db) (username password : String) : Db :=
  { db with users := db.users ++ [⟨db.nextUserId, username, password⟩]
            nextUserId := db.nextUserId + 1 }

/-- The effect of `DELETE FROM users WHERE id = ?`: only the `users` table changes. -/
def deleteUser (db : Db) (userId : Nat) : Db :=
  { db with users := db.users.filter (fun u => decide (u.id ≠ userId)) }

/-- The rows of `SELECT * FROM recipes where user_id = ?`; a `NULL` parameter
matches no row. -/
def recipesByUser (db : Db) (userId : Option Nat) : List Recipe :=
  match userId with
  | none => []
  | some i => db.recipes.filter (fun r => decide (r.user_id = some i))

/-- The effect of `INSERT INTO recipes (recipe_name, ingredients, user_id) VALUES (?, ?, ?)`. -/
def insertRecipe (db : Db) (recipeName ingredients : String) (userId : Option Nat) : Db :=
  { db with recipes := db.recipes ++ [⟨db.nextRecipeId, recipeName, ingredients, userId⟩]
            nextRecipeId := db.nextRecipeId + 1 }

/-- The rows of `SELECT * FROM recipes WHERE id = ? and user_id = ?`. -/
def recipesByIdAndUser (db : Db) (recipeId : Nat) (userId : Option Nat) : List Recipe :=
  (db.recipesByUser userId).filter (fun r => decide (r.id = recipeId))

/-- The effect of `UPDATE recipes SET recipe_name = ?, ingredients = ? WHERE id = ?`. -/
def updateRecipe (db : Db) (recipeName ingredients : String) (recipeId : Nat) : Db :=
  { db with recipes := db.recipes.map (fun r =>
      if r.id = recipeId then { r with recipe_name := recipeName, ingredients := ingredients }
      else r) }

/-- The effect of `DELETE FROM recipes WHERE id = ?`. -/
def deleteRecipe (db : Db) (recipeId : Nat) : Db :=
  { db with recipes := db.recipes.filter (fun r => decide (r.id ≠ recipeId)) }

end Db

/-! ## Sessions, flash messages, responses -/

/-- The record `req.session`: the two fields that `POST /login` sets, and the flash
queue of `express-flash` as pairs of a type (`error`, `success`) and a message. -/
structure Session where
  user : Option String
  userId : Option Nat
  flash : List (String × String)
deriving DecidableEq, Repr

namespace Session

/-- A fresh session: nothing set. -/
def empty : Session := ⟨none, none, []⟩

/-- The test `!req.session.user`: true when the field is unset or is the empty string. -/
def noUser (s : Session) : Bool :=
  match s.user with
  | none => true
  | some u => u.isEmpty

/-- The call `req.flash(type, msg)` with one message. -/
def addFlash (s : Session) (type msg : String) : Session :=
  { s with flash := s.flash ++ [(type, msg)] }

/-- The call `req.flash(type, msgs)` with an array of messages: each one is queued. -/
def addFlashAll (s : Session) (type : String) (msgs : List String) : Session :=
  { s with flash := s.flash ++ msgs.map (fun m => (type, m)) }

/-- The messages that `req.flash(type)` returns. -/
def flashOf (s : Session) (type : String) : List String :=
  (s.flash.filter (fun m => decide (m.1 = type))).map (fun m => m.2)

/-- The session after `req.flash(type)`: the messages of that type are consumed. -/
def dropFlash (s : Session) (type : String) : Session :=
  { s with flash := s.flash.filter (fun m => decide (m.1 ≠ type)) }

/-- The session after `res.render(...)`: `express-flash` moves every queued message
into `res.locals.messages`. -/
def rendered (s : Session) : Session := { s with flash := [] }

end Session

/-- What a handler sent, if anything. -/
inductive Response where
  | redirect (path : String)
  | send (status : Nat) (body : String)
  | renderIndex (user : Option String) (recipes : List Recipe)
  | renderLogin (message : List String)
  | renderRegister (message : List String)
  | renderAdmin (users : List User)
  | renderNewRecipe (message : String)
  | renderEditRecipe (message : String) (recipe : Recipe)
  | pending
deriving DecidableEq, Repr

/-- The state after a handler ran, and its response. -/
structure Outcome where
  db : Db
  session : Session
  response : Response
deriving DecidableEq, Repr

/-- The two functions of `bcrypt` that the application calls. -/
structure Hasher where
  hash : String → String
  compare : String → String → Bool

/-- The call `bcrypt.compare(password, hash)`: the promise is rejected when the data
argument is absent (`none`), and resolves to the verdict of the hasher otherwise. -/
def bcryptCompare (h : Hasher) (password : Option String) (hash : String) : Option Bool :=
  match password with
  | none => none
  | some p => some (h.compare p hash)

/-- The failures of statements that the model follows: of the insert into `users`, of
the admin listing and of the user deletion, whose callbacks test `err`, and of the
`SELECT` of `POST /login`, whose callback reads `results.length` without a test. -/
structure Faults where
  insertUser : Bool
  listUsers : Bool
  deleteUser : Bool
  findUser : Bool
deriving DecidableEq, Repr

/-- The call `store.destroy(sid, callback)` on the `MemoryStore` of `express-session`,
the store in use because the options of lines 26-36 name none: the session is deleted
and the callback is called without an error. The result is whether the callback gets
an error, and the session that the cookie finds afterwards. -/
def memoryStoreDestroy (_s : Session) : Bool × Session := (false, Session.empty)

/-- No failure. -/
def Faults.none : Faults := ⟨false, false, false, false⟩

/-! ## The middleware and the route handlers -/

/-- The middleware `requireLogin` of lines 40-46 in front of a handler `next`. -/
def requireLogin (next : Db → Session → Outcome) (db : Db) (s : Session) : Outcome :=
  if s.noUser then
    ⟨db, s.addFlash "error" "Please log in to access this page.", .redirect "/login"⟩
  else next db s

/-- The handler `GET /` of lines 49-61. -/
def getIndex : Db → Session → Outcome :=
  requireLogin fun db s =>
    ⟨db.issue "SELECT * FROM recipes where user_id = ?", s.rendered,
      .renderIndex s.user (db.recipesByUser s.userId)⟩

/-- The handler `GET /login` of lines 63-65. -/
def getLogin (db : Db) (s : Session) : Outcome :=
  ⟨db, (s.dropFlash "error").rendered, .renderLogin (s.flashOf "error")⟩

/-- The rows that the `SELECT` of `POST /login` returns for the parameter
`[username]`: an absent username is sent as `NULL`, which equals no username. -/
def loginResults (db : Db) (username : Option String) : List User :=
  match username with
  | none => []
  | some u => db.usersByUsername u

/-- The handler `POST /login` of lines 67-99. The callback of the query is `async` and
outside the `try`: when the `SELECT` fails `results` is undefined and `results.length`
throws, and when `bcrypt.compare` rejects the `await` throws; in both cases the
callback ends there and no response is sent. -/
def postLogin (h : Hasher) (f : Faults) (username password : Option String) (db : Db)
    (s : Session) : Outcome :=
  let db1 := db.issue "SELECT * FROM users WHERE username = ?"
  if f.findUser then ⟨db1, s, .pending⟩
  else
    match loginResults db username with
    | row :: _ =>
      match bcryptCompare h password row.password with
      | none => ⟨db1, s, .pending⟩
      | some true =>
        ⟨db1, { s with userId := some row.id, user := some row.username }, .redirect "/"⟩
      | some false =>
        ⟨db1, s.addFlash "error" "Invalid username or password.", .redirect "/login"⟩
    | [] =>
      ⟨db1, s.addFlash "error" "Invalid username or password.", .redirect "/login"⟩

/-- The handler `GET /register` of lines 101-103. -/
def getRegister (db : Db) (s : Session) : Outcome :=
  ⟨db, (s.dropFlash "error").rendered, .renderRegister (s.flashOf "error")⟩

/-- The handler `GET /logout` of lines 105-114: `req.session.destroy` hands the
callback to the store; with an error the callback only logs it and sends nothing,
without one it redirects. -/
def getLogout (db : Db) (s : Session) : Outcome :=
  match memoryStoreDestroy s with
  | (true, s') => ⟨db, s', .pending⟩
  | (false, s') => ⟨db, s', .redirect "/login"⟩

/-- The handler `POST /register` of lines 116-165, after its validation chains. The
handler reads `req.body.username` after the sanitizers have rewritten it. -/
def postRegister (h : Hasher) (f : Faults) (username password : String) (db : Db)
    (s : Session) : Outcome :=
  let errorMessages := validationErrors username password
  let username := sanitizeUsername username
  if !errorMessages.isEmpty then
    ⟨db, s.addFlashAll "error" errorMessages, .redirect "/register"⟩
  else
    let db1 := db.issue "SELECT * FROM users WHERE username = ?"
    if !(db.usersByUsername username).isEmpty then
      ⟨db1, s.addFlash "error" "Username is already taken.", .redirect "/register"⟩
    else
      let hashedPassword := h.hash password
      let db2 := db1.issue "INSERT INTO users (username, password) VALUES (?, ?)"
      if f.insertUser then
        ⟨db2, s.addFlash "error" "Error registering user.", .redirect "/register"⟩
      else
        ⟨db2.insertUser username hashedPassword,
          s.addFlash "success" "Registration successful. Please log in.", .redirect "/login"⟩

/-- The handler `GET /admin` of lines 167-181. -/
def getAdmin (f : Faults) : Db → Session → Outcome :=
  requireLogin fun db s =>
    if s.user ≠ some "admin" then ⟨db, s, .send 403 "Permission denied"⟩
    else
      let db1 := db.issue "SELECT * FROM users WHERE username != ?"
      if f.listUsers then ⟨db1, s, .send 500 "Internal Server Error"⟩
      else ⟨db1, s.rendered, .renderAdmin (db.usersExcept "admin")⟩

/-- The handler `POST /delete-user/:userId` of lines 183-197 (no `requireLogin`). -/
def postDeleteUser (f : Faults) (userId : Nat) (db : Db) (s : Session) : Outcome :=
  if s.user ≠ some "admin" then ⟨db, s, .send 403 "Permission denied"⟩
  else
    let db1 := db.issue "DELETE FROM users WHERE id = ?"
    if f.deleteUser then ⟨db1, s, .send 500 "Internal Server Error"⟩
    else ⟨db1.deleteUser userId, s, .redirect "/admin"⟩

/-- The handler `GET /recipes/new` of lines 202-204. -/
def getRecipesNew : Db → Session → Outcome :=
  requireLogin fun db s => ⟨db, s.rendered, .renderNewRecipe "message"⟩

/-- The handler `POST /recipes` of lines 206-219. -/
def postRecipes (recipeName ingredients : String) : Db → Session → Outcome :=
  requireLogin fun db s =>
    ⟨(db.issue "INSERT INTO recipes (recipe_name, ingredients, user_id) VALUES (?, ?, ?)").insertRecipe
        recipeName ingredients s.userId,
      s.addFlash "success" "Recipe added successfully.", .redirect "/"⟩

/-- The handler `GET /recipes/edit/:id` of lines 224-244. -/
def getRecipesEdit (recipeId : Nat) : Db → Session → Outcome :=
  requireLogin fun db s =>
    let db1 := db.issue "SELECT * FROM recipes WHERE id = ? and user_id = ?"
    match db.recipesByIdAndUser recipeId s.userId with
    | recipe :: _ => ⟨db1, s.rendered, .renderEditRecipe "Welcome" recipe⟩
    | [] => ⟨db1, s.addFlash "error" "Recipe not found.", .redirect "/"⟩

/-- The handler `POST /recipes/edit/:id` of lines 246-263. -/
def postRecipesEdit (recipeId : Nat) (recipeName ingredients : String) :
    Db → Session → Outcome :=
  requireLogin fun db s =>
    ⟨(db.issue "UPDATE recipes SET recipe_name = ?, ingredients = ? WHERE id = ?").updateRecipe
        recipeName ingredients recipeId,
      s.addFlash "success" "Recipe updated successfully.", .redirect "/"⟩

/-- The handler `GET /recipes/delete/:id` of lines 266-277. -/
def getRecipesDelete (recipeId : Nat) : Db → Session → Outcome :=
  requireLogin fun db s =>
    ⟨(db.issue "DELETE FROM recipes WHERE id = ? ").deleteRecipe recipeId,
      s.addFlash "success" "Recipe deleted successfully.", .redirect "/"⟩

/-! ## Requests and the application as a transition system -/

/-- The requests that the routes of `app.js` accept. A route parameter `:id` or
`:userId` is given by the number that the store compares with the `id` column; a field
of the body of `POST /login` is `none` when the body does not have it. -/
inductive Request where
  | getIndex
  | getLogin
  | postLogin (username password : Option String)
  | getRegister
  | getLogout
  | postRegister (username password : String)
  | getAdmin
  | postDeleteUser (userId : Nat)
  | getRecipesNew
  | postRecipes (recipeName ingredients : String)
  | getRecipesEdit (id : Nat)
  | postRecipesEdit (id : Nat) (recipeName ingredients : String)
  | getRecipesDelete (id : Nat)
deriving DecidableEq, Repr

/-- The routes that are registered with `requireLogin`. -/
def Request.guarded : Request → Bool
  | .getIndex | .getAdmin | .getRecipesNew | .postRecipes _ _ | .getRecipesEdit _
  | .postRecipesEdit _ _ _ | .getRecipesDelete _ => true
  | _ => false

/-- The route `POST /delete-user/:userId`. -/
def Request.isDeleteUser : Request → Bool
  | .postDeleteUser _ => true
  | _ => false

/-- Routing: the handler that `app.js` registers for a request. -/
def handle (h : Hasher) (f : Faults) : Request → Db → Session → Outcome
  | .getIndex => getIndex
  | .getLogin => getLogin
  | .postLogin u p => postLogin h f u p
  | .getRegister => getRegister
  | .getLogout => getLogout
  | .postRegister u p => postRegister h f u p
  | .getAdmin => getAdmin f
  | .postDeleteUser i => postDeleteUser f i
  | .getRecipesNew => getRecipesNew
  | .postRecipes n g => postRecipes n g
  | .getRecipesEdit i => getRecipesEdit i
  | .postRecipesEdit i n g => postRecipesEdit i n g
  | .getRecipesDelete i => getRecipesDelete i

/-- The server: the store and the session of every cookie. -/
structure App where
  db : Db
  sessions : Nat → Session

/-- The server at start-up with an empty store. -/
def App.init : App := ⟨Db.empty, fun _ => Session.empty⟩

/-- One request carrying the cookie `sid`. -/
def App.step (h : Hasher) (f : Faults) (sid : Nat) (r : Request) (a : App) : App :=
  let out := handle h f r a.db (a.sessions sid)
  ⟨out.db, fun k => if k = sid then out.session else a.sessions k⟩

/-- The response to one request carrying the cookie `sid`. -/
def App.respond (h : Hasher) (f : Faults) (sid : Nat) (r : Request) (a : App) : Response :=
  (handle h f r a.db (a.sessions sid)).response

/-- The states that the server reaches from `App.init` by requests that `ok` admits. -/
inductive Reachable (h : Hasher) (ok : Request → Bool) : App → Prop where
  | init : Reachable h ok App.init
  | step {a : App} (f : Faults) (sid : Nat) (r : Request) :
      Reachable h ok a → ok r = true → Reachable h ok (a.step h f sid r)

/-- The referential property of the spec: the owner of every recipe row is the id of
a user row. -/
def Db.recipesOwned (db : Db) : Prop :=
  ∀ r ∈ db.recipes, ∃ u ∈ db.users, r.user_id = some u.id

/-- A sequence of requests, each with the failures it meets and the cookie it carries. -/
def App.run (h : Hasher) : List (Faults × Nat × Request) → App → App
  | [], a => a
  | (f, sid, r) :: rest, a => App.run h rest (a.step h f sid r)

/-- A sequence of recipe creations by two sessions: `true` marks a `POST /recipes` with the
cookie `sidA`, `false` one with the cookie `sidB`. -/
def creations (sidA sidB : Nat) (ops : List (Bool × String × String)) :
    List (Faults × Nat × Request) :=
  ops.map fun op => (Faults.none, if op.1 then sidA else sidB, .postRecipes op.2.1 op.2.2)

/-- The composite password policy in the words of the spec: at least 6 characters,
a lowercase letter, an uppercase letter, a digit, and a symbol of the fixed set. -/
def meetsPasswordPolicy (p : String) : Prop :=
  6 ≤ p.length ∧ (∃ c ∈ p.toList, isLowerAZ c = true) ∧ (∃ c ∈ p.toList, isUpperAZ c = true)
    ∧ (∃ c ∈ p.toList, isDigit09 c = true) ∧ (∃ c ∈ p.toList, isSymbol c = true)

instance (p : String) : Decidable (meetsPasswordPolicy p) := by
  unfold meetsPasswordPolicy
  infer_instance

instance (db : Db) : Decidable db.recipesOwned := by
  unfold Db.recipesOwned
  infer_instance

/-- The property that every handler other than the user deletion keeps: the recipes
are owned by user rows, and so is every session that is logged in. -/
def App.inv (a : App) : Prop :=
  a.db.recipesOwned
    ∧ ∀ sid, (a.sessions sid).noUser = false →
        ∃ u ∈ a.db.users, (a.sessions sid).userId = some u.id

/-- What a handler other than the user deletion can change: user rows are only added,
a recipe row has the owner of an earlier row or the user of the logged-in session, and
a session that is logged in afterwards was logged in as the same user before or has
just logged in as a user row. -/
def Frame (db : Db) (s : Session) (out : Outcome) : Prop :=
  (∀ u ∈ db.users, u ∈ out.db.users)
    ∧ (∀ x ∈ out.db.recipes,
        (∃ y ∈ db.recipes, x.user_id = y.user_id) ∨ (s.noUser = false ∧ x.user_id = s.userId))
    ∧ (out.session.noUser = false →
        (s.noUser = false ∧ out.session.userId = s.userId)
          ∨ ∃ u ∈ db.users, out.session.userId = some u.id)

/-- A hasher for the examples: the hash of `p` is `p` behind a fixed tag. -/
def demoHasher : Hasher :=
  ⟨fun p => "$2b$10$" ++ p, fun p hashed => decide (hashed = "$2b$10$" ++ p)⟩

/-- A store for the examples: the users `admin` (id 1) and `alice` (id 2), and one
recipe of `alice`. -/
def demoDb : Db :=
  ⟨[⟨1, "admin", "$2b$10$Adm1n!"⟩, ⟨2, "alice", "$2b$10$Passw0rd!"⟩],
    [⟨1, "Toast", "bread", some 2⟩], 3, 2, []⟩

/-- A server for the examples: the example store with a third user `bob` (id 3), the
session of `alice` behind cookie 1 and the session of `bob` behind cookie 2. -/
def demoApp : App :=
  ⟨{ demoDb with users := demoDb.users ++ [⟨3, "bob", "$2b$10$S3cret?"⟩], nextUserId := 4 },
    fun k => if k = 1 then ⟨some "alice", some 2, []⟩
      else if k = 2 then ⟨some "bob", some 3, []⟩ else Session.empty⟩

/-- The example server after `alice` and then `bob` each created a recipe named `Toast`. -/
def toastApp : App :=
  App.run demoHasher (creations 1 2 [(true, "Toast", "rye"), (false, "Toast", "wheat")]) demoApp

/-- The requests that leave a recipe without owner: `admin` and `alice` register,
`alice` logs in and creates a recipe, `admin` logs in and deletes the user `alice`. -/
def orphanRequests : List (Faults × Nat × Request) :=
  [(Faults.none, 1, .postRegister "admin" "Adm1n!"),
   (Faults.none, 1, .postRegister "alice" "Passw0rd!"),
   (Faults.none, 1, .postLogin (some "alice") (some "Passw0rd!")),
   (Faults.none, 1, .postRecipes "Soup" "water,salt"),
   (Faults.none, 2, .postLogin (some "admin") (some "Adm1n!")),
   (Faults.none, 2, .postDeleteUser 2)]

/-! ## Lemmas on the password pattern -/

theorem not_lineTerminator_of_inPasswordClass (c : Char) (hc : inPasswordClass c = true) :
    isLineTerminator c = false := by
  simp only [inPasswordClass, isUpperAZ, isLowerAZ, isDigit09, isSymbol, Bool.or_eq_true,
    Bool.and_eq_true, decide_eq_true_eq, List.mem_cons, List.mem_singleton, List.not_mem_nil,
    or_false] at hc
  simp only [isLineTerminator, Bool.or_eq_false_iff, decide_eq_false_iff_not]
  rcases hc with ((h | h) | h) | h
  · omega
  · omega
  · omega
  · rcases h with h | h | h | h | h | h | h <;> subst h <;> decide

theorem not_variationSelector_of_inPasswordClass (c : Char)
    (hc : inPasswordClass c = true) : isVariationSelector c = false := by
  simp only [inPasswordClass, isUpperAZ, isLowerAZ, isDigit09, isSymbol, Bool.or_eq_true,
    Bool.and_eq_true, decide_eq_true_eq, List.mem_cons, List.mem_singleton, List.not_mem_nil,
    or_false] at hc
  simp only [isVariationSelector, Bool.or_eq_false_iff, decide_eq_false_iff_not]
  rcases hc with ((h | h) | h) | h
  · omega
  · omega
  · omega
  · rcases h with h | h | h | h | h | h | h <;> subst h <;> decide

theorem validatorLength_le (s : String) : validatorLength s ≤ s.length :=
  List.length_filter_le _ _

theorem validatorLength_eq_of_class (s : String)
    (hall : ∀ c ∈ s.toList, inPasswordClass c = true) : validatorLength s = s.length := by
  unfold validatorLength
  rw [List.filter_eq_self.2 fun c hc => by
    simp [not_variationSelector_of_inPasswordClass c (hall c hc)]]
  rfl

theorem lookahead_eq_any (cls : Char → Bool) (cs : List Char)
    (hall : cs.all inPasswordClass = true) : lookahead cls cs = cs.any cls := by
  induction cs with
  | nil => rfl
  | cons c cs ih =>
    simp only [List.all_cons, Bool.and_eq_true] at hall
    simp [lookahead, ih hall.2, not_lineTerminator_of_inPasswordClass c hall.1]

theorem lookahead_imp_any (cls : Char → Bool) (cs : List Char)
    (hl : lookahead cls cs = true) : ∃ c ∈ cs, cls c = true := by
  induction cs with
  | nil => simp [lookahead] at hl
  | cons c cs ih =>
    simp only [lookahead, Bool.or_eq_true, Bool.and_eq_true] at hl
    rcases hl with h | ⟨_, h⟩
    · exact ⟨c, List.mem_cons_self _ _, h⟩
    · obtain ⟨d, hd, hcd⟩ := ih h
      exact ⟨d, List.mem_cons_of_mem _ hd, hcd⟩

theorem matchesPasswordPattern_iff (p : String) :
    matchesPasswordPattern p = true ↔
      (∃ c ∈ p.toList, isLowerAZ c = true) ∧ (∃ c ∈ p.toList, isUpperAZ c = true)
        ∧ (∃ c ∈ p.toList, isDigit09 c = true) ∧ (∃ c ∈ p.toList, isSymbol c = true)
        ∧ ∀ c ∈ p.toList, inPasswordClass c = true := by
  constructor
  · intro hm
    simp only [matchesPasswordPattern, classPlus, Bool.and_eq_true] at hm
    obtain ⟨⟨⟨⟨h1, h2⟩, h3⟩, h4⟩, _, h5⟩ := hm
    exact ⟨lookahead_imp_any _ _ h1, lookahead_imp_any _ _ h2, lookahead_imp_any _ _ h3,
      lookahead_imp_any _ _ h4, by simpa using h5⟩
  · rintro ⟨h1, h2, h3, h4, h5⟩
    have hall : p.toList.all inPasswordClass = true := by simpa using h5
    have hne : p.toList.isEmpty = false := by
      obtain ⟨c, hc, _⟩ := h1
      cases hp : p.toList with
      | nil => rw [hp] at hc; cases hc
      | cons _ _ => rfl
    simp only [matchesPasswordPattern, classPlus, lookahead_eq_any _ _ hall, hall, hne,
      Bool.and_eq_true, List.any_eq_true, Bool.not_false, and_true]
    exact ⟨⟨⟨h1, h2⟩, h3⟩, h4⟩

theorem passwordErrors_eq_nil_iff (p : String) :
    passwordErrors p = [] ↔ isLengthMin 6 p = true ∧ matchesPasswordPattern p = true := by
  unfold passwordErrors
  by_cases h1 : isLengthMin 6 p = true <;> by_cases h2 : matchesPasswordPattern p = true <;>
    simp [h1, h2]

theorem passwordErrors_ne_nil_of_not_policy (p : String) (hp : ¬ meetsPasswordPolicy p) :
    passwordErrors p ≠ [] := by
  intro hnil
  obtain ⟨hlen, hm⟩ := (passwordErrors_eq_nil_iff p).1 hnil
  obtain ⟨h1, h2, h3, h4, _⟩ := (matchesPasswordPattern_iff p).1 hm
  have hlen' : 6 ≤ validatorLength p := by simpa [isLengthMin] using hlen
  exact hp ⟨le_trans hlen' (validatorLength_le p), h1, h2, h3, h4⟩

/-! ## Lemmas on sessions and on the transition system -/

@[simp]
theorem Session.noUser_addFlash (s : Session) (t m : String) :
    (s.addFlash t m).noUser = s.noUser := rfl

@[simp]
theorem Session.noUser_addFlashAll (s : Session) (t : String) (ms : List String) :
    (s.addFlashAll t ms).noUser = s.noUser := rfl

@[simp]
theorem Session.noUser_rendered (s : Session) : s.rendered.noUser = s.noUser := rfl

@[simp]
theorem Session.noUser_dropFlash (s : Session) (t : String) :
    (s.dropFlash t).noUser = s.noUser := rfl

@[simp]
theorem Session.noUser_empty : Session.empty.noUser = true := rfl

@[simp]
theorem Session.userId_addFlash (s : Session) (t m : String) :
    (s.addFlash t m).userId = s.userId := rfl

@[simp]
theorem Session.userId_addFlashAll (s : Session) (t : String) (ms : List String) :
    (s.addFlashAll t ms).userId = s.userId := rfl

@[simp]
theorem Session.userId_rendered (s : Session) : s.rendered.userId = s.userId := rfl

@[simp]
theorem Session.userId_dropFlash (s : Session) (t : String) :
    (s.dropFlash t).userId = s.userId := rfl

theorem mem_users_of_usersByUsername (db : Db) (name : String) (row : User)
    (rest : List User) (hq : db.usersByUsername name = row :: rest) :
    row ∈ db.users ∧ row.username = name := by
  have hmem : row ∈ db.usersByUsername name := by rw [hq]; exact List.mem_cons_self _ _
  simpa [Db.usersByUsername, List.mem_filter] using hmem

theorem Frame.same {db : Db} {s : Session} {out : Outcome}
    (hu : ∀ u ∈ db.users, u ∈ out.db.users) (hr : out.db.recipes = db.recipes)
    (hs : out.session.noUser = false → s.noUser = false ∧ out.session.userId = s.userId) :
    Frame db s out :=
  ⟨hu, fun x hx => Or.inl ⟨x, hr ▸ hx, rfl⟩, fun hlog => Or.inl (hs hlog)⟩

theorem Frame.requireLogin {db : Db} {s : Session} {next : Db → Session → Outcome}
    (hnext : s.noUser = false → Frame db s (next db s)) :
    Frame db s (requireLogin next db s) := by
  unfold RecipeApp.requireLogin
  by_cases hno : s.noUser = true
  · rw [if_pos hno]
    exact Frame.same (fun u hu => hu) rfl (fun hlog => by simp [hno] at hlog)
  · rw [if_neg hno]
    exact hnext (by simpa using hno)

theorem handle_frame (h : Hasher) (f : Faults) (r : Request) (db : Db) (s : Session)
    (hr : r.isDeleteUser = false) : Frame db s (handle h f r db s) := by
  cases r with
  | postDeleteUser i => simp [Request.isDeleteUser] at hr
  | getIndex =>
    exact Frame.requireLogin fun hno => Frame.same (fun u hu => hu) rfl (fun _ => ⟨hno, rfl⟩)
  | getLogin => exact Frame.same (fun u hu => hu) rfl (fun hlog => ⟨hlog, rfl⟩)
  | getRegister => exact Frame.same (fun u hu => hu) rfl (fun hlog => ⟨hlog, rfl⟩)
  | getLogout =>
    exact Frame.same (fun u hu => hu) rfl (fun hlog => by
      simp [handle, getLogout, memoryStoreDestroy] at hlog)
  | postLogin u p =>
    simp only [handle, postLogin]
    split
    · exact Frame.same (fun u hu => hu) rfl (fun hlog => ⟨hlog, rfl⟩)
    · split
      · rename_i row rest hq
        have hrow : row ∈ db.users := by
          cases u with
          | none => simp [loginResults] at hq
          | some name => exact (mem_users_of_usersByUsername db name row rest hq).1
        split
        · exact Frame.same (fun u hu => hu) rfl (fun hlog => ⟨hlog, rfl⟩)
        · exact ⟨fun u hu => hu, fun x hx => Or.inl ⟨x, hx, rfl⟩,
            fun _ => Or.inr ⟨row, hrow, rfl⟩⟩
        · exact Frame.same (fun u hu => hu) rfl (fun hlog => ⟨hlog, rfl⟩)
      · exact Frame.same (fun u hu => hu) rfl (fun hlog => ⟨hlog, rfl⟩)
  | postRegister u p =>
    simp only [handle, postRegister]
    split
    · exact Frame.same (fun u hu => hu) rfl (fun hlog => ⟨hlog, rfl⟩)
    · split
      · exact Frame.same (fun u hu => hu) rfl (fun hlog => ⟨hlog, rfl⟩)
      · split
        · exact Frame.same (fun u hu => hu) rfl (fun hlog => ⟨hlog, rfl⟩)
        · exact Frame.same (fun u hu => List.mem_append_left _ hu) rfl
            (fun hlog => ⟨hlog, rfl⟩)
  | getAdmin =>
    refine Frame.requireLogin fun hno => ?_
    dsimp only
    split
    · exact Frame.same (fun u hu => hu) rfl (fun _ => ⟨hno, rfl⟩)
    · split
      · exact Frame.same (fun u hu => hu) rfl (fun _ => ⟨hno, rfl⟩)
      · exact Frame.same (fun u hu => hu) rfl (fun _ => ⟨hno, rfl⟩)
  | getRecipesNew =>
    exact Frame.requireLogin fun hno => Frame.same (fun u hu => hu) rfl (fun _ => ⟨hno, rfl⟩)
  | postRecipes n g =>
    refine Frame.requireLogin fun hno => ⟨fun u hu => hu, fun x hx => ?_, fun _ => Or.inl ⟨hno, rfl⟩⟩
    rcases List.mem_append.1 hx with hx | hx
    · exact Or.inl ⟨x, hx, rfl⟩
    · exact Or.inr ⟨hno, by rw [List.mem_singleton.1 hx]⟩
  | getRecipesEdit i =>
    refine Frame.requireLogin fun hno => ?_
    dsimp only
    split
    · exact Frame.same (fun u hu => hu) rfl (fun _ => ⟨hno, rfl⟩)
    · exact Frame.same (fun u hu => hu) rfl (fun _ => ⟨hno, rfl⟩)
  | postRecipesEdit i n g =>
    refine Frame.requireLogin fun hno => ⟨fun u hu => hu, fun x hx => ?_, fun _ => Or.inl ⟨hno, rfl⟩⟩
    obtain ⟨y, hy, hxy⟩ := List.mem_map.1 hx
    refine Or.inl ⟨y, hy, ?_⟩
    split at hxy <;> rw [← hxy]
  | getRecipesDelete i =>
    refine Frame.requireLogin fun hno => ⟨fun u hu => hu, fun x hx => ?_, fun _ => Or.inl ⟨hno, rfl⟩⟩
    exact Or.inl ⟨x, (List.mem_filter.1 hx).1, rfl⟩

theorem step_preserves_inv (h : Hasher) (f : Faults) (sid : Nat) (r : Request) (a : App)
    (hr : r.isDeleteUser = false) (hinv : a.inv) : (a.step h f sid r).inv := by
  obtain ⟨hown, hsess⟩ := hinv
  obtain ⟨husers, hrec, hlog⟩ := handle_frame h f r a.db (a.sessions sid) hr
  refine ⟨fun x hx => ?_, fun k hk => ?_⟩
  · rcases hrec x hx with ⟨y, hy, hxy⟩ | ⟨hno, hxs⟩
    · obtain ⟨u, hu, hyu⟩ := hown y hy
      exact ⟨u, husers u hu, hxy.trans hyu⟩
    · obtain ⟨u, hu, hsu⟩ := hsess sid hno
      exact ⟨u, husers u hu, hxs.trans hsu⟩
  · by_cases hks : k = sid
    · subst hks
      simp only [App.step, if_true] at hk ⊢
      rcases hlog hk with ⟨hno, hsame⟩ | ⟨u, hu, hsu⟩
      · obtain ⟨u, hu, hsu⟩ := hsess k hno
        exact ⟨u, husers u hu, hsame.trans hsu⟩
      · exact ⟨u, husers u hu, hsu⟩
    · simp only [App.step, if_neg hks] at hk ⊢
      obtain ⟨u, hu, hsu⟩ := hsess k hk
      exact ⟨u, husers u hu, hsu⟩

theorem init_inv : App.init.inv :=
  ⟨fun x hx => by simp [App.init, Db.empty] at hx, fun sid hs => by simp [App.init] at hs⟩

theorem reachable_run (h : Hasher) (ok : Request → Bool)
    (reqs : List (Faults × Nat × Request)) (a : App) (ha : Reachable h ok a)
    (hok : ∀ q ∈ reqs, ok q.2.2 = true) : Reachable h ok (App.run h reqs a) := by
  induction reqs generalizing a with
  | nil => exact ha
  | cons q reqs ih =>
    obtain ⟨f, sid, r⟩ := q
    exact ih _ (Reachable.step f sid r ha (hok _ (List.mem_cons_self _ _)))
      (fun q hq => hok q (List.mem_cons_of_mem _ hq))

/-! ## The claims -/

/-- C10: the password chain of `POST /register` reports no error exactly for the
strings of at least 6 characters that contain a lowercase ASCII letter, an uppercase
ASCII letter, a digit and one of `@$!%*?&`, and consist only of ASCII letters, digits
and these symbols; so a string that meets the length and the four class requirements
but holds another character gets the pattern error, and the registration is answered
by the redirect to `/register` with the store unchanged. -/
theorem password_validator_exact :
    (∀ p : String, passwordErrors p = [] ↔
      (6 ≤ p.length ∧ (∃ c ∈ p.toList, isLowerAZ c = true)
        ∧ (∃ c ∈ p.toList, isUpperAZ c = true) ∧ (∃ c ∈ p.toList, isDigit09 c = true)
        ∧ (∃ c ∈ p.toList, isSymbol c = true)
        ∧ ∀ c ∈ p.toList, isLowerAZ c = true ∨ isUpperAZ c = true ∨ isDigit09 c = true
            ∨ isSymbol c = true))
    ∧ (∀ p : String, meetsPasswordPolicy p →
        (∃ c ∈ p.toList, isLowerAZ c = false ∧ isUpperAZ c = false ∧ isDigit09 c = false
          ∧ isSymbol c = false) →
        msgPasswordPattern ∈ passwordErrors p ∧ passwordErrors p ≠ []
          ∧ ∀ (h : Hasher) (f : Faults) (u : String) (db : Db) (s : Session),
              (postRegister h f u p db s).response = .redirect "/register"
                ∧ (postRegister h f u p db s).db = db) := by
  have hcls : ∀ c : Char, inPasswordClass c = true ↔
      (isLowerAZ c = true ∨ isUpperAZ c = true ∨ isDigit09 c = true ∨ isSymbol c = true) := by
    intro c
    simp only [inPasswordClass, Bool.or_eq_true]
    tauto
  refine ⟨fun p => ?_, fun p _ hother => ?_⟩
  · rw [passwordErrors_eq_nil_iff, matchesPasswordPattern_iff]
    simp only [isLengthMin, decide_eq_true_eq, ← hcls]
    constructor
    · rintro ⟨hlen, h1, h2, h3, h4, h5⟩
      exact ⟨by rw [← validatorLength_eq_of_class p h5]; exact hlen, h1, h2, h3, h4, h5⟩
    · rintro ⟨hlen, h1, h2, h3, h4, h5⟩
      exact ⟨by rw [validatorLength_eq_of_class p h5]; exact hlen, h1, h2, h3, h4, h5⟩
  · have hnot : matchesPasswordPattern p = false := by
      rw [Bool.eq_false_iff]
      intro hm
      obtain ⟨c, hc, h1, h2, h3, h4⟩ := hother
      have := ((matchesPasswordPattern_iff p).1 hm).2.2.2.2 c hc
      rw [hcls] at this
      simp [h1, h2, h3, h4] at this
    have hmem : msgPasswordPattern ∈ passwordErrors p := by
      simp [passwordErrors, hnot]
    have hne : passwordErrors p ≠ [] := List.ne_nil_of_mem hmem
    refine ⟨hmem, hne, fun h f u db s => ?_⟩
    have hv : (validationErrors u p).isEmpty = false := by
      cases hx : validationErrors u p with
      | nil =>
        unfold validationErrors at hx
        exact absurd (List.append_eq_nil.1 hx).2 hne
      | cons _ _ => rfl
    simp [postRegister, hv]

/-- Witness of C10 at the passwords `Passw0rd!` (accepted), `Passw0rd !` (rejected for
the space) and `Aa1!a` followed by U+FE0F (rejected for the variation selector). -/
theorem password_validator_exact_witness :
    passwordErrors "Passw0rd!" = [] ∧ msgPasswordPattern ∈ passwordErrors "Passw0rd !"
      ∧ msgPasswordPattern ∈ passwordErrors "Aa1!a\uFE0F" :=
  ⟨(password_validator_exact.1 "Passw0rd!").2 (by decide),
    (password_validator_exact.2 "Passw0rd !" (by decide) (by decide)).1,
    (password_validator_exact.2 "Aa1!a\uFE0F" (by decide) (by decide)).1⟩

/-- When the password field is present and the `SELECT` executes, a `POST /login` that
fails because no user row has the username and one that fails because the password does
not match the hash of the row found give the same outcome: the error flash
`Invalid username or password.`, a redirect to `/login`, and `session.user` and
`session.userId` as they were. -/
theorem login_failures_same_of_password_present (h : Hasher) (db : Db) (s : Session)
    (u₁ u₂ p₁ : Option String) (p₂ : String) (row : User) (rest : List User)
    (hmiss : loginResults db u₁ = [])
    (hfound : loginResults db u₂ = row :: rest)
    (hbad : h.compare p₂ row.password = false) :
    postLogin h Faults.none u₁ p₁ db s = postLogin h Faults.none u₂ (some p₂) db s
      ∧ postLogin h Faults.none u₂ (some p₂) db s
          = ⟨db.issue "SELECT * FROM users WHERE username = ?",
              s.addFlash "error" "Invalid username or password.", .redirect "/login"⟩ := by
  simp [postLogin, Faults.none, hmiss, hfound, hbad, bcryptCompare]

/-- C1 (failing input): on the example store a `POST /login` whose body has the username
but no password field is answered differently for a user row and for an unknown name:
for `alice`, `bcrypt.compare` rejects and no response is sent; for `bob`, the handler
flashes `Invalid username or password.` and redirects to `/login`. -/
theorem login_without_password_distinguishes (h : Hasher) :
    postLogin h Faults.none (some "alice") none demoDb Session.empty
        = ⟨demoDb.issue "SELECT * FROM users WHERE username = ?", Session.empty, .pending⟩
      ∧ postLogin h Faults.none (some "bob") none demoDb Session.empty
        = ⟨demoDb.issue "SELECT * FROM users WHERE username = ?",
            Session.empty.addFlash "error" "Invalid username or password.",
            .redirect "/login"⟩ := by
  have ha : loginResults demoDb (some "alice") = [⟨2, "alice", "$2b$10$Passw0rd!"⟩] := by
    decide
  have hb : loginResults demoDb (some "bob") = [] := by decide
  simp [postLogin, Faults.none, ha, hb, bcryptCompare]

/-- C3: a `POST /register` whose sanitized username is already in the `users` table,
or whose password fails the composite policy (in particular one without an uppercase
letter), is answered by a redirect to `/register` with at least one new error flash,
and leaves both tables as they were. -/
theorem register_rejects (h : Hasher) (f : Faults) (u p : String) (db : Db) (s : Session)
    (hrej : db.usersByUsername (sanitizeUsername u) ≠ [] ∨ ¬ meetsPasswordPolicy p
      ∨ ∀ c ∈ p.toList, isUpperAZ c = false) :
    (postRegister h f u p db s).response = .redirect "/register"
      ∧ (postRegister h f u p db s).db.users = db.users
      ∧ (postRegister h f u p db s).db.recipes = db.recipes
      ∧ ∃ msgs : List String, msgs ≠ []
          ∧ (postRegister h f u p db s).session = s.addFlashAll "error" msgs := by
  have hpol : db.usersByUsername (sanitizeUsername u) ≠ [] ∨ ¬ meetsPasswordPolicy p := by
    rcases hrej with h1 | h2 | h3
    · exact Or.inl h1
    · exact Or.inr h2
    · refine Or.inr fun hm => ?_
      obtain ⟨c, hc, hup⟩ := hm.2.2.1
      rw [h3 c hc] at hup
      cases hup
  by_cases hv : (validationErrors u p).isEmpty = true
  · have hnil : validationErrors u p = [] := by simpa using hv
    have hpw : passwordErrors p = [] := by
      unfold validationErrors at hnil
      exact (List.append_eq_nil.1 hnil).2
    have htaken : db.usersByUsername (sanitizeUsername u) ≠ [] := by
      rcases hpol with h1 | h2
      · exact h1
      · exact absurd hpw (passwordErrors_ne_nil_of_not_policy p h2)
    have hne : (db.usersByUsername (sanitizeUsername u)).isEmpty = false := by
      cases hx : db.usersByUsername (sanitizeUsername u) with
      | nil => exact absurd hx htaken
      | cons _ _ => rfl
    simp only [postRegister, hv, hne, Bool.not_true, Bool.not_false, Bool.false_eq_true,
      if_false, if_true, Db.issue, true_and]
    exact ⟨["Username is already taken."], by simp, rfl⟩
  · have hne : validationErrors u p ≠ [] := by simpa using hv
    simp only [postRegister, Bool.not_eq_true] at hv ⊢
    simp only [hv, Bool.not_false, if_true, true_and]
    exact ⟨validationErrors u p, hne, rfl⟩

/-- Witness of C3: `alice` is taken on the example store, and `passw0rd!` has no
uppercase letter. -/
theorem register_rejects_witness :
    ((postRegister demoHasher Faults.none " alice" "Passw0rd!" demoDb Session.empty).response
        = .redirect "/register"
      ∧ (postRegister demoHasher Faults.none " alice" "Passw0rd!" demoDb Session.empty).db.users
        = demoDb.users)
      ∧ (postRegister demoHasher Faults.none "carol" "passw0rd!" Db.empty Session.empty).db.users
        = [] :=
  have w₁ := register_rejects demoHasher Faults.none " alice" "Passw0rd!" demoDb Session.empty
    (Or.inl (by decide))
  have w₂ := register_rejects demoHasher Faults.none "carol" "passw0rd!" Db.empty Session.empty
    (Or.inr (Or.inr (by decide)))
  ⟨⟨w₁.1, w₁.2.1⟩, w₂.2.1⟩

/-- C4: on every route registered with `requireLogin`, a request whose session has no
user gets the error flash `Please log in to access this page.` and a redirect to
`/login`, and the handler does not run: the store, the list of issued statements
included, is the same afterwards. -/
theorem requireLogin_blocks (h : Hasher) (f : Faults) (r : Request) (db : Db) (s : Session)
    (hguard : r.guarded = true) (hnone : s.user = none) :
    (handle h f r db s).response = .redirect "/login"
      ∧ (handle h f r db s).session = s.addFlash "error" "Please log in to access this page."
      ∧ (handle h f r db s).db = db
      ∧ (handle h f r db s).db.log = db.log
      ∧ (handle h f r db s).db.users = db.users
      ∧ (handle h f r db s).db.recipes = db.recipes := by
  have hno : s.noUser = true := by simp [Session.noUser, hnone]
  cases r <;> simp [Request.guarded] at hguard <;>
    simp [handle, getIndex, getAdmin, getRecipesNew, postRecipes, getRecipesEdit,
      postRecipesEdit, getRecipesDelete, requireLogin, hno]

/-- Witness of C4: `GET /recipes/delete/1` without a login leaves the example store, recipe
1 included, as it is. -/
theorem requireLogin_blocks_witness :
    (handle demoHasher Faults.none (.getRecipesDelete 1) demoDb Session.empty).response
        = .redirect "/login"
      ∧ (handle demoHasher Faults.none (.getRecipesDelete 1) demoDb Session.empty).db = demoDb :=
  have w := requireLogin_blocks demoHasher Faults.none (.getRecipesDelete 1) demoDb
    Session.empty (by decide) (by decide)
  ⟨w.1, w.2.2.1⟩

/-- C5: `GET /admin` from a logged-in session whose username is not `admin`, and
`POST /delete-user/:userId` from any session whose username is not `admin` (a session
without user included), are answered by 403 `Permission denied`; no user list is
rendered and the store is unchanged. -/
theorem admin_check_denies (f : Faults) (userId : Nat) (db : Db) (s : Session)
    (hnot : s.user ≠ some "admin") :
    (s.noUser = false → getAdmin f db s = ⟨db, s, .send 403 "Permission denied"⟩)
      ∧ postDeleteUser f userId db s = ⟨db, s, .send 403 "Permission denied"⟩
      ∧ (postDeleteUser f userId db s).db.users = db.users := by
  refine ⟨fun hlog => ?_, ?_, ?_⟩
  · simp [getAdmin, requireLogin, hlog, hnot]
  · simp [postDeleteUser, hnot]
  · simp [postDeleteUser, hnot]

/-- Witness of C5: the session of `alice` on the example store, asking for the admin
page and for the deletion of user 1. -/
theorem admin_check_denies_witness :
    getAdmin Faults.none demoDb ⟨some "alice", some 2, []⟩
        = ⟨demoDb, ⟨some "alice", some 2, []⟩, .send 403 "Permission denied"⟩
      ∧ postDeleteUser Faults.none 1 demoDb ⟨some "alice", some 2, []⟩
        = ⟨demoDb, ⟨some "alice", some 2, []⟩, .send 403 "Permission denied"⟩ :=
  have w := admin_check_denies Faults.none 1 demoDb ⟨some "alice", some 2, []⟩ (by decide)
  ⟨w.1 (by decide), w.2.1⟩

/-- A run of recipe creations by two logged-in sessions appends one row per request,
owned by the user of the session that sent it, and leaves both sessions logged in as
the same users. -/
theorem run_creations (h : Hasher) (sidA sidB ida idb : Nat)
    (ops : List (Bool × String × String)) (a : App)
    (hA : (a.sessions sidA).noUser = false) (hA' : (a.sessions sidA).userId = some ida)
    (hB : (a.sessions sidB).noUser = false) (hB' : (a.sessions sidB).userId = some idb) :
    ∃ rows : List Recipe,
      List.Forall₂ (fun op row => row.recipe_name = op.2.1 ∧ row.ingredients = op.2.2
        ∧ row.user_id = some (if op.1 = true then ida else idb)) ops rows
      ∧ (App.run h (creations sidA sidB ops) a).db.recipes = a.db.recipes ++ rows
      ∧ ((App.run h (creations sidA sidB ops) a).sessions sidB).noUser = false
      ∧ ((App.run h (creations sidA sidB ops) a).sessions sidB).userId = some idb
      ∧ ((App.run h (creations sidA sidB ops) a).sessions sidB).user = (a.sessions sidB).user := by
  induction ops generalizing a with
  | nil => exact ⟨[], List.Forall₂.nil, by simp [creations, App.run], hB, hB', rfl⟩
  | cons op ops ih =>
    obtain ⟨who, name, ingr⟩ := op
    have hstep : ∀ sid : Nat, (a.sessions sid).noUser = false →
        (a.step h Faults.none sid (.postRecipes name ingr)).db.recipes
            = a.db.recipes ++ [⟨a.db.nextRecipeId, name, ingr, (a.sessions sid).userId⟩]
          ∧ ∀ k, ((a.step h Faults.none sid (.postRecipes name ingr)).sessions k).noUser
                = (a.sessions k).noUser
            ∧ ((a.step h Faults.none sid (.postRecipes name ingr)).sessions k).userId
                = (a.sessions k).userId
            ∧ ((a.step h Faults.none sid (.postRecipes name ingr)).sessions k).user
                = (a.sessions k).user := by
      intro sid hsid
      refine ⟨by simp [App.step, handle, postRecipes, requireLogin, hsid, Db.issue,
        Db.insertRecipe], fun k => ?_⟩
      by_cases hk : k = sid
      · subst hk
        have hout : postRecipes name ingr a.db (a.sessions k)
            = ⟨(a.db.issue "INSERT INTO recipes (recipe_name, ingredients, user_id) VALUES (?, ?, ?)").insertRecipe
                name ingr (a.sessions k).userId,
              (a.sessions k).addFlash "success" "Recipe added successfully.", .redirect "/"⟩ := by
          simp [postRecipes, requireLogin, hsid]
        simp [App.step, handle, hout, Session.addFlash, Session.noUser]
      · simp [App.step, hk]
    have hsid : (a.sessions (if who = true then sidA else sidB)).noUser = false := by
      cases who <;> simp [hA, hB]
    have huid : (a.sessions (if who = true then sidA else sidB)).userId
        = some (if who = true then ida else idb) := by
      cases who <;> simp [hA', hB']
    obtain ⟨hrec, hsess⟩ := hstep _ hsid
    obtain ⟨rows, hrows, hdb, h1, h2, h3⟩ :=
      ih (a.step h Faults.none (if who = true then sidA else sidB) (.postRecipes name ingr))
        (by rw [(hsess sidA).1]; exact hA) (by rw [(hsess sidA).2.1]; exact hA')
        (by rw [(hsess sidB).1]; exact hB) (by rw [(hsess sidB).2.1]; exact hB')
    refine ⟨⟨a.db.nextRecipeId, name, ingr, some (if who = true then ida else idb)⟩ :: rows,
      List.Forall₂.cons ⟨rfl, rfl, rfl⟩ hrows, ?_, ?_, ?_, ?_⟩
    · simp only [creations, List.map_cons, App.run] at hdb ⊢
      rw [hdb, hrec, huid, List.append_assoc, List.singleton_append]
    · simpa only [creations, List.map_cons, App.run] using h1
    · simpa only [creations, List.map_cons, App.run] using h2
    · simp only [creations, List.map_cons, App.run] at h3 ⊢
      rw [h3, (hsess sidB).2.2]

/-- C6: with user A logged in behind cookie `sidA` and user B behind `sidB`, `POST /recipes`
by A appends exactly one row, owned by A; `GET /` by B renders exactly the rows owned by
B; and after any sequence of creations by the two, the page of B shows B's earlier rows
and the rows B created, and no row that A created, whatever the names. -/
theorem recipes_isolated_on_read (h : Hasher) (a : App) (sidA sidB ida idb : Nat)
    (hA : (a.sessions sidA).noUser = false) (hA' : (a.sessions sidA).userId = some ida)
    (hB : (a.sessions sidB).noUser = false) (hB' : (a.sessions sidB).userId = some idb)
    (hne : ida ≠ idb) :
    (∀ name ingr : String,
        (postRecipes name ingr a.db (a.sessions sidA)).db.recipes
            = a.db.recipes ++ [⟨a.db.nextRecipeId, name, ingr, some ida⟩]
          ∧ (postRecipes name ingr a.db (a.sessions sidA)).db.users = a.db.users)
      ∧ (getIndex a.db (a.sessions sidB)).response
          = .renderIndex (a.sessions sidB).user
              (a.db.recipes.filter fun r => decide (r.user_id = some idb))
      ∧ ∀ ops : List (Bool × String × String), ∃ rows : List Recipe,
          List.Forall₂ (fun op row => row.recipe_name = op.2.1 ∧ row.ingredients = op.2.2
            ∧ row.user_id = some (if op.1 = true then ida else idb)) ops rows
          ∧ (App.run h (creations sidA sidB ops) a).db.recipes = a.db.recipes ++ rows
          ∧ App.respond h Faults.none sidB .getIndex (App.run h (creations sidA sidB ops) a)
              = .renderIndex (a.sessions sidB).user
                  ((a.db.recipes ++ rows).filter fun r => decide (r.user_id = some idb))
          ∧ ∀ r ∈ rows, r.user_id = some ida →
              r ∉ (a.db.recipes ++ rows).filter fun r => decide (r.user_id = some idb) := by
  refine ⟨fun name ingr => ?_, ?_, fun ops => ?_⟩
  · simp [postRecipes, requireLogin, hA, hA', Db.issue, Db.insertRecipe]
  · simp [getIndex, requireLogin, hB, hB', Db.issue, Db.recipesByUser]
  · obtain ⟨rows, hrows, hdb, h1, h2, h3⟩ := run_creations h sidA sidB ida idb ops a hA hA' hB hB'
    refine ⟨rows, hrows, hdb, ?_, fun r _ hr hmem => ?_⟩
    · simp [App.respond, handle, getIndex, requireLogin, h1, h2, h3, hdb, Db.issue,
        Db.recipesByUser]
    · have := (List.mem_filter.1 hmem).2
      rw [hr] at this
      simp at this
      exact hne this

/-- Witness of C6: after `alice` and `bob` each created a recipe named `Toast`, the page
of `bob` shows his `Toast` only. -/
theorem recipes_isolated_on_read_witness :
    (getIndex toastApp.db (toastApp.sessions 2)).response
      = .renderIndex (some "bob") [⟨3, "Toast", "wheat", some 3⟩] :=
  (recipes_isolated_on_read demoHasher toastApp 1 2 2 3 (by decide) (by decide) (by decide)
    (by decide) (by decide)).2.1.trans (by decide)

/-- C7: the update and the delete handler do not look at the owner. For a row `r`
owned by user A and a logged-in session of another user B, `POST /recipes/edit/r.id`
by B sets the name and the ingredients of the row to the submitted values and
`GET /recipes/delete/r.id` by B removes the row; both flash success and redirect to
`/`, and the rows with another id, and the `users` table, stay as they are. -/
theorem update_delete_unchecked (db : Db) (s : Session) (r : Recipe) (ida idb : Nat)
    (name ingr : String) (hr : r ∈ db.recipes) (hown : r.user_id = some ida)
    (hlog : s.noUser = false) (hB : s.userId = some idb) (hne : ida ≠ idb) :
    ((postRecipesEdit r.id name ingr db s).response = .redirect "/"
      ∧ (postRecipesEdit r.id name ingr db s).session
          = s.addFlash "success" "Recipe updated successfully."
      ∧ (postRecipesEdit r.id name ingr db s).db.recipes
          = db.recipes.map (fun x => if x.id = r.id then ⟨x.id, name, ingr, x.user_id⟩ else x)
      ∧ ⟨r.id, name, ingr, some ida⟩ ∈ (postRecipesEdit r.id name ingr db s).db.recipes
      ∧ (∀ x ∈ (postRecipesEdit r.id name ingr db s).db.recipes, x.id = r.id →
          x.recipe_name = name ∧ x.ingredients = ingr)
      ∧ (∀ x : Recipe, x.id ≠ r.id →
          (x ∈ (postRecipesEdit r.id name ingr db s).db.recipes ↔ x ∈ db.recipes))
      ∧ (postRecipesEdit r.id name ingr db s).db.users = db.users)
    ∧ ((getRecipesDelete r.id db s).response = .redirect "/"
      ∧ (getRecipesDelete r.id db s).session
          = s.addFlash "success" "Recipe deleted successfully."
      ∧ (getRecipesDelete r.id db s).db.recipes
          = db.recipes.filter (fun x => decide (x.id ≠ r.id))
      ∧ r ∉ (getRecipesDelete r.id db s).db.recipes
      ∧ (∀ x : Recipe, x.id ≠ r.id →
          (x ∈ (getRecipesDelete r.id db s).db.recipes ↔ x ∈ db.recipes))
      ∧ (getRecipesDelete r.id db s).db.users = db.users) := by
  have hup : (postRecipesEdit r.id name ingr db s)
      = ⟨(db.issue "UPDATE recipes SET recipe_name = ?, ingredients = ? WHERE id = ?").updateRecipe
          name ingr r.id, s.addFlash "success" "Recipe updated successfully.", .redirect "/"⟩ := by
    simp [postRecipesEdit, requireLogin, hlog]
  have hdel : (getRecipesDelete r.id db s)
      = ⟨(db.issue "DELETE FROM recipes WHERE id = ? ").deleteRecipe r.id,
          s.addFlash "success" "Recipe deleted successfully.", .redirect "/"⟩ := by
    simp [getRecipesDelete, requireLogin, hlog]
  rw [hup, hdel]
  dsimp only [Db.updateRecipe, Db.deleteRecipe, Db.issue]
  refine ⟨⟨rfl, rfl, rfl, ?_, ?_, ?_, rfl⟩, rfl, rfl, rfl, ?_, ?_, rfl⟩
  · refine List.mem_map.2 ⟨r, hr, ?_⟩
    simp [hown]
  · intro x hx hid
    obtain ⟨y, _, hy⟩ := List.mem_map.1 hx
    by_cases hyr : y.id = r.id
    · rw [if_pos hyr] at hy
      subst hy
      exact ⟨rfl, rfl⟩
    · rw [if_neg hyr] at hy
      subst hy
      exact absurd hid hyr
  · intro x hx
    constructor
    · intro hmem
      obtain ⟨y, hy, hxy⟩ := List.mem_map.1 hmem
      by_cases hyr : y.id = r.id
      · rw [if_pos hyr] at hxy
        subst hxy
        exact absurd hyr hx
      · rw [if_neg hyr] at hxy
        subst hxy
        exact hy
    · intro hmem
      exact List.mem_map.2 ⟨x, hmem, by rw [if_neg hx]⟩
  · simp [List.mem_filter]
  · intro x hx
    simp [List.mem_filter, hx]

/-- Witness of C7: on the example server `bob` (id 3) renames and deletes recipe 1 of
`alice` (id 2). -/
theorem update_delete_unchecked_witness :
    (⟨1, "Burnt", "coal", some 2⟩ : Recipe)
        ∈ (postRecipesEdit 1 "Burnt" "coal" demoApp.db (demoApp.sessions 2)).db.recipes
      ∧ (getRecipesDelete 1 demoApp.db (demoApp.sessions 2)).db.recipes = [] :=
  have w := update_delete_unchecked demoApp.db (demoApp.sessions 2) ⟨1, "Toast", "bread", some 2⟩
    2 3 "Burnt" "coal" (by decide) (by decide) (by decide) (by decide) (by decide)
  ⟨w.1.2.2.2.1, w.2.2.2.1.trans (by decide)⟩

/-- The round trip holds for a username that the sanitizers leave as submitted: when
`POST /register` passes validation, finds the username free and inserts the row, and
the hasher accepts a password against its own hash, a later `POST /login` with the same
username and password, from any session, logs in as the new row and redirects to `/`. -/
theorem register_then_login_of_unchanged_username (h : Hasher) (f : Faults) (u p : String)
    (db : Db) (s s' : Session) (hv : validationErrors u p = [])
    (hfix : sanitizeUsername u = u) (hfree : db.usersByUsername u = [])
    (hins : f.insertUser = false) (hcmp : h.compare p (h.hash p) = true) :
    (postRegister h f u p db s).response = .redirect "/login"
      ∧ (postRegister h f u p db s).db.users = db.users ++ [⟨db.nextUserId, u, h.hash p⟩]
      ∧ (postLogin h Faults.none (some u) (some p) (postRegister h f u p db s).db s').response
          = .redirect "/"
      ∧ (postLogin h Faults.none (some u) (some p)
          (postRegister h f u p db s).db s').session.user = some u
      ∧ (postLogin h Faults.none (some u) (some p)
          (postRegister h f u p db s).db s').session.userId = some db.nextUserId := by
  have hreg : postRegister h f u p db s
      = ⟨((db.issue "SELECT * FROM users WHERE username = ?").issue
            "INSERT INTO users (username, password) VALUES (?, ?)").insertUser u (h.hash p),
          s.addFlash "success" "Registration successful. Please log in.", .redirect "/login"⟩ := by
    simp [postRegister, hv, hfix, hfree, hins]
  have hq : loginResults (((db.issue "SELECT * FROM users WHERE username = ?").issue
      "INSERT INTO users (username, password) VALUES (?, ?)").insertUser u (h.hash p)) (some u)
      = [⟨db.nextUserId, u, h.hash p⟩] := by
    have hfree' : List.filter (fun x : User => decide (x.username = u)) db.users = [] := hfree
    simp [loginResults, Db.usersByUsername, Db.insertUser, Db.issue, List.filter_append, hfree']
  rw [hreg]
  simp only [postLogin, hq, bcryptCompare, hcmp, Faults.none]
  simp [Db.insertUser, Db.issue]

/-- C2 (failing input): registering `tom&jerry` with `Passw0rd!` on the empty store
succeeds and stores the escaped username `tom&amp;jerry`; the login with the same
submitted username and password then finds no row, whatever the hasher: it redirects
to `/login` with the error flash and sets neither `session.user` nor `session.userId`. -/
theorem register_then_login_escaped_username (h : Hasher) :
    (postRegister h Faults.none "tom&jerry" "Passw0rd!" Db.empty Session.empty).response
        = .redirect "/login"
      ∧ (postRegister h Faults.none "tom&jerry" "Passw0rd!" Db.empty Session.empty).db.users
        = [⟨1, "tom&amp;jerry", h.hash "Passw0rd!"⟩]
      ∧ postLogin h Faults.none (some "tom&jerry") (some "Passw0rd!")
          (postRegister h Faults.none "tom&jerry" "Passw0rd!" Db.empty Session.empty).db
          Session.empty
        = ⟨((postRegister h Faults.none "tom&jerry" "Passw0rd!" Db.empty Session.empty).db).issue
              "SELECT * FROM users WHERE username = ?",
            ⟨none, none, [("error", "Invalid username or password.")]⟩, .redirect "/login"⟩ := by
  have hv : validationErrors "tom&jerry" "Passw0rd!" = [] := by decide
  have hs : sanitizeUsername "tom&jerry" = "tom&amp;jerry" := by decide
  have hreg : postRegister h Faults.none "tom&jerry" "Passw0rd!" Db.empty Session.empty
      = ⟨⟨[⟨1, "tom&amp;jerry", h.hash "Passw0rd!"⟩], [], 2, 1,
            ["SELECT * FROM users WHERE username = ?",
              "INSERT INTO users (username, password) VALUES (?, ?)"]⟩,
          ⟨none, none, [("success", "Registration successful. Please log in.")]⟩,
          .redirect "/login"⟩ := by
    simp [postRegister, hv, hs, Db.usersByUsername, Db.empty, Db.issue, Db.insertUser,
      Faults.none, Session.addFlash, Session.empty]
  rw [hreg]
  simp [postLogin, loginResults, Db.usersByUsername, Db.issue, Session.addFlash,
    Session.empty, Faults.none]

/-- C8: every `GET /logout` is answered by a redirect to `/login`. The session store is
the `MemoryStore`, whose `destroy` never hands an error to the callback, so the branch
that only logs is not taken and the response does not depend on it; the store is
unchanged and the session is gone. -/
theorem logout_redirects (h : Hasher) (f : Faults) (db : Db) (s : Session) :
    (handle h f .getLogout db s).response = .redirect "/login"
      ∧ (handle h f .getLogout db s).db = db
      ∧ (handle h f .getLogout db s).session = Session.empty
      ∧ (memoryStoreDestroy s).1 = false := by
  simp [handle, getLogout, memoryStoreDestroy]

/-- C9 (counterexample): a state reached from the empty store through the handlers in
which a recipe row has no owning user row: `alice` (id 2) created `Soup`, then `admin`
deleted the user `alice`, and `DELETE FROM users` left the recipe in place. -/
theorem orphan_recipe_reachable :
    Reachable demoHasher (fun _ => true) (App.run demoHasher orphanRequests App.init)
      ∧ (App.run demoHasher orphanRequests App.init).db.users = [⟨1, "admin", "$2b$10$Adm1n!"⟩]
      ∧ (App.run demoHasher orphanRequests App.init).db.recipes
          = [⟨1, "Soup", "water,salt", some 2⟩]
      ∧ ¬ (App.run demoHasher orphanRequests App.init).db.recipesOwned :=
  ⟨reachable_run demoHasher (fun _ => true) orphanRequests App.init Reachable.init
      (fun _ _ => rfl), by decide, by decide, by decide⟩

/-- C9 (amended): every handler other than `POST /delete-user/:userId` preserves the
property that each recipe row is owned by a user row and each logged-in session belongs
to a user row; so in every state reached from the empty store without a request to
`POST /delete-user/:userId`, every recipe row has an owning user row. -/
theorem recipes_owned_without_user_deletion (h : Hasher) :
    (∀ (f : Faults) (sid : Nat) (r : Request) (a : App),
        r.isDeleteUser = false → a.inv → (a.step h f sid r).inv)
      ∧ ∀ a : App, Reachable h (fun r => !r.isDeleteUser) a → a.db.recipesOwned := by
  refine ⟨fun f sid r a hr hinv => step_preserves_inv h f sid r a hr hinv, fun a ha => ?_⟩
  have hinv : a.inv := by
    induction ha with
    | init => exact init_inv
    | step f sid r _ hok ih => exact step_preserves_inv h f sid r _ (by simpa using hok) ih
  exact hinv.1

/-- Witness of C9 (amended): the state after the first five requests of the example,
before the user deletion, has the recipe `Soup` and its owner `alice`. -/
theorem recipes_owned_without_user_deletion_witness :
    (App.run demoHasher (orphanRequests.take 5) App.init).db.recipes
        = [⟨1, "Soup", "water,salt", some 2⟩]
      ∧ (App.run demoHasher (orphanRequests.take 5) App.init).db.recipesOwned :=
  ⟨by decide, (recipes_owned_without_user_deletion demoHasher).2 _
    (reachable_run demoHasher (fun r => !r.isDeleteUser) (orphanRequests.take 5) App.init
      Reachable.init (by decide))⟩

end RecipeApp
